import Mathlib

/-!
Shallow embedding of the contact-form validation module of the
hello-world-landing repository (source file src/js/form.js): the static
rule table VALIDATION_RULES, the pure validation functions validateField
and validateForm, the snapshot construction and submission gating of
handleSubmit, and the string primitives they depend on (JavaScript
string trimming and the email regular expression).
-/

namespace FormJs

/-- Whitespace as understood by JavaScript: the WhiteSpace and
LineTerminator code points, which form both the character class matched
by the regex class backslash-s and the characters removed by
String.prototype.trim. -/
def isJsWhitespace (c : Char) : Bool :=
  c == ' ' || c == '\t' || c == '\n' || c == '\x0b' || c == '\x0c' || c == '\r' ||
  c == '\u00A0' || c == '\u1680' ||
  (decide (0x2000 ≤ c.toNat) && decide (c.toNat ≤ 0x200a)) ||
  c == '\u2028' || c == '\u2029' || c == '\u202F' || c == '\u205F' ||
  c == '\u3000' || c == '\uFEFF'

/-- Drop leading JavaScript whitespace from a character list. -/
def trimLeftChars (l : List Char) : List Char := l.dropWhile isJsWhitespace

/-- JavaScript trim on the character list level: drop whitespace from the
left, then from the right (by reversing, dropping from the left, and
reversing back). -/
def jsTrimChars (l : List Char) : List Char :=
  (trimLeftChars (trimLeftChars l).reverse).reverse

/-- JavaScript value.trim() as used by validateField (line 37 of form.js). -/
def jsTrim (s : String) : String := ⟨jsTrimChars s.data⟩

/-- Character class of the email regex excluding whitespace and the at sign. -/
def isEmailChar (c : Char) : Bool := !isJsWhitespace c && c != '@'

/-- Split a character list at its first at sign, returning the part before
and the part after, or none when the list has no at sign. -/
def splitAtFirstAt : List Char → Option (List Char × List Char)
  | [] => none
  | c :: cs =>
    if c == '@' then some ([], cs)
    else
      match splitAtFirstAt cs with
      | none => none
      | some (bef, aft) => some (c :: bef, aft)

/-- Test of the anchored email regex of VALIDATION_RULES.email (line 19 of
form.js): one or more characters outside whitespace and the at sign, an at
sign, one or more such characters, a dot, and one or more such characters.
Because the character class excludes the at sign, a match must split the
string at its unique at sign; the part after it must consist of such
characters and contain a dot that is neither its first nor its last
character. -/
def matchesEmailRegex (s : String) : Bool :=
  match splitAtFirstAt s.data with
  | none => false
  | some (localPart, domainPart) =>
    !localPart.isEmpty && localPart.all isEmailChar &&
    domainPart.all isEmailChar &&
    ((domainPart.drop 1).dropLast.contains '.')

/-- The one regular-expression literal occurring in the rule table. -/
inductive RegexLit
  | emailRegex
deriving DecidableEq

/-- Evaluate a regular-expression literal on a string, as regex.test does. -/
def RegexLit.test : RegexLit → String → Bool
  | .emailRegex, s => matchesEmailRegex s

/-- FieldRule: one entry of VALIDATION_RULES with its required flag,
optional minimum and maximum lengths, optional regular expression, and
human-readable message. A value none models an absent key of the
JavaScript object literal. -/
structure FieldRule where
  required : Bool
  minLength : Option Nat := none
  maxLength : Option Nat := none
  pattern : Option RegexLit := none
  message : String
deriving DecidableEq

/-- Rule for the name field (lines 11 to 16 of form.js). -/
def nameRule : FieldRule :=
  { required := true
    minLength := some 2
    maxLength := some 100
    message := "Please enter your name (at least 2 characters)" }

/-- Rule for the email field (lines 17 to 21 of form.js). -/
def emailRule : FieldRule :=
  { required := true
    pattern := some .emailRegex
    message := "Please enter a valid email address" }

/-- Rule for the message field (lines 22 to 27 of form.js). -/
def messageRule : FieldRule :=
  { required := true
    minLength := some 10
    maxLength := some 1000
    message := "Please enter a message (at least 10 characters)" }

/-- Lookup VALIDATION_RULES[name] (lines 10 to 28 of form.js). -/
def VALIDATION_RULES (field : String) : Option FieldRule :=
  if field = "name" then some nameRule
  else if field = "email" then some emailRule
  else if field = "message" then some messageRule
  else none

/-- Result of validateField: either valid, or invalid with a message. -/
inductive ValidationResult
  | valid
  | invalid (message : String)
deriving DecidableEq

/-- The valid flag of a ValidationResult. -/
def ValidationResult.isValid : ValidationResult → Bool
  | .valid => true
  | .invalid _ => false

/-- JavaScript truthiness of an optional numeric rule field: an absent key
(undefined) and the number 0 are both falsy. -/
def lengthFieldTruthy : Option Nat → Bool
  | none => false
  | some n => n != 0

/-- validateField(name, value) (lines 33 to 60 of form.js): look up the
rule for the field, trim the value, then run the required, minimum-length,
maximum-length and pattern checks in order, returning on the first
failure. -/
def validateField (name value : String) : ValidationResult :=
  match VALIDATION_RULES name with
  | none => .valid
  | some rules =>
    let trimmedValue := jsTrim value
    if rules.required && trimmedValue == "" then
      .invalid rules.message
    else if lengthFieldTruthy rules.minLength &&
        decide (trimmedValue.length < rules.minLength.getD 0) then
      .invalid rules.message
    else if lengthFieldTruthy rules.maxLength &&
        decide (rules.maxLength.getD 0 < trimmedValue.length) then
      .invalid ("Maximum " ++ toString (rules.maxLength.getD 0) ++ " characters allowed")
    else if (rules.pattern.map (fun p => ! p.test trimmedValue)).getD false then
      .invalid rules.message
    else
      .valid

/-- validateForm(formData) (lines 65 to 76 of form.js): the error object,
as an association list in iteration order of the snapshot; fields whose
validateField result is valid contribute no entry. -/
def validateForm : List (String × String) → List (String × String)
  | [] => []
  | (name, value) :: rest =>
    match validateField name value with
    | .valid => validateForm rest
    | .invalid msg => (name, msg) :: validateForm rest

/-- The snapshot handleSubmit builds from the form (lines 216 to 221 of
form.js): for each of the three named fields, the raw form value, with the
empty string substituted when the field is missing (null) or empty. -/
def buildFormSnapshot (getField : String → Option String) : List (String × String) :=
  [("name", (getField "name").getD ""),
   ("email", (getField "email").getD ""),
   ("message", (getField "message").getD "")]

/-- Outcome of a submission attempt: either validation errors are displayed
and the submission is not attempted, or simulateSubmission is invoked on
the snapshot. -/
inductive SubmitOutcome
  | blocked (errors : List (String × String))
  | submitted (formData : List (String × String))
deriving DecidableEq

/-- Validation and gating logic of handleSubmit (lines 200 to 243 of
form.js): build the snapshot, validate it, and hand the snapshot to
simulateSubmission only when the error object is empty. -/
def handleSubmit (getField : String → Option String) : SubmitOutcome :=
  let formData := buildFormSnapshot getField
  let errors := validateForm formData
  if errors.length > 0 then .blocked errors
  else .submitted formData

/-- The head of a left-trimmed list is never whitespace. -/
theorem trimLeftChars_head? {l : List Char} {c : Char}
    (h : (trimLeftChars l).head? = some c) : isJsWhitespace c = false := by
  have hw := List.head?_dropWhile_not isJsWhitespace l
  unfold trimLeftChars at h
  rw [h] at hw
  exact hw

/-- A list whose head fails the whitespace test is unchanged by left trimming. -/
theorem trimLeftChars_of_head? {l : List Char}
    (h : ∀ c, l.head? = some c → isJsWhitespace c = false) : trimLeftChars l = l := by
  cases l with
  | nil => rfl
  | cons a as =>
    have ha := h a rfl
    unfold trimLeftChars
    rw [List.dropWhile_cons, ha]
    simp

/-- Left trimming preserves the last element when the result is nonempty. -/
theorem trimLeftChars_getLast? {l : List Char} (h : trimLeftChars l ≠ []) :
    (trimLeftChars l).getLast? = l.getLast? := by
  induction l with
  | nil => simp [trimLeftChars] at h
  | cons a as ih =>
    by_cases hp : isJsWhitespace a = true
    · have e : trimLeftChars (a :: as) = trimLeftChars as := by
        simp [trimLeftChars, List.dropWhile_cons, hp]
      rw [e] at h
      rw [e, ih h]
      cases as with
      | nil => simp [trimLeftChars] at h
      | cons b bs => rw [List.getLast?_cons_cons]
    · have e : trimLeftChars (a :: as) = a :: as := by
        simp [trimLeftChars, List.dropWhile_cons, hp]
      rw [e]

/-- The double-ended JavaScript trim is idempotent, character-list level. -/
theorem jsTrimChars_idem (l : List Char) : jsTrimChars (jsTrimChars l) = jsTrimChars l := by
  have key : ∀ m : List Char,
      jsTrimChars (trimLeftChars (trimLeftChars m).reverse).reverse
        = (trimLeftChars (trimLeftChars m).reverse).reverse := by
    intro m
    by_cases hw : trimLeftChars (trimLeftChars m).reverse = []
    · rw [hw]; rfl
    · have hA : trimLeftChars (trimLeftChars (trimLeftChars m).reverse).reverse
          = (trimLeftChars (trimLeftChars m).reverse).reverse := by
        apply trimLeftChars_of_head?
        intro c hc
        rw [List.head?_reverse, trimLeftChars_getLast? hw, List.getLast?_reverse] at hc
        exact trimLeftChars_head? hc
      unfold jsTrimChars
      rw [hA, List.reverse_reverse]
      have hB : trimLeftChars (trimLeftChars (trimLeftChars m).reverse)
          = trimLeftChars (trimLeftChars m).reverse := by
        apply trimLeftChars_of_head?
        intro c hc
        exact trimLeftChars_head? hc
      rw [hB]
  exact key l

/-- JavaScript trim is idempotent. -/
theorem jsTrim_idem (s : String) : jsTrim (jsTrim s) = jsTrim s :=
  congrArg String.mk (jsTrimChars_idem s.data)

/-- splitAtFirstAt splits exactly at the first at sign. -/
theorem splitAtFirstAt_append {l : List Char} (h : ∀ c ∈ l, (c == '@') = false)
    (rest : List Char) : splitAtFirstAt (l ++ '@' :: rest) = some (l, rest) := by
  induction l with
  | nil => rfl
  | cons c cs ih =>
    have hc := h c (List.mem_cons_self c cs)
    have hcs : ∀ x ∈ cs, (x == '@') = false := fun x hx => h x (List.mem_cons_of_mem c hx)
    simp [List.cons_append, splitAtFirstAt, hc, ih hcs]

/-- A concrete valid email address far beyond one thousand characters. -/
def longEmailAddress : String :=
  ⟨List.replicate 1100 'a' ++ '@' :: String.data "example.com"⟩

/-- The long address has 1112 characters. -/
theorem longEmailAddress_length : longEmailAddress.length = 1112 := by
  show (List.replicate 1100 'a' ++ '@' :: String.data "example.com").length = 1112
  rw [List.length_append, List.length_replicate]
  rfl

/-- The long address matches the email regex. -/
theorem longEmailAddress_matches : matchesEmailRegex longEmailAddress = true := by
  have hno : ∀ c ∈ List.replicate 1100 'a', (c == '@') = false := by
    intro c hc
    rw [List.eq_of_mem_replicate hc]
    rfl
  have hsplit := splitAtFirstAt_append hno (String.data "example.com")
  unfold matchesEmailRegex
  rw [show longEmailAddress.data
        = List.replicate 1100 'a' ++ '@' :: String.data "example.com" from rfl, hsplit]
  simp only [Bool.and_eq_true]
  refine ⟨⟨⟨?_, ?_⟩, by decide⟩, by decide⟩
  · rw [show (1100 : Nat) = 1099 + 1 from rfl, List.replicate_succ]
    rfl
  · rw [List.all_eq_true]
    intro x hx
    rw [List.eq_of_mem_replicate hx]
    rfl

/-- The long address is unchanged by trimming. -/
theorem jsTrim_longEmailAddress : jsTrim longEmailAddress = longEmailAddress := by
  have h1 : trimLeftChars (List.replicate 1100 'a' ++ '@' :: String.data "example.com")
      = List.replicate 1100 'a' ++ '@' :: String.data "example.com" := by
    apply trimLeftChars_of_head?
    intro c hc
    rw [show (1100 : Nat) = 1099 + 1 from rfl, List.replicate_succ, List.cons_append,
      List.head?_cons] at hc
    cases hc
    rfl
  have h2 : trimLeftChars (List.replicate 1100 'a' ++ '@' :: String.data "example.com").reverse
      = (List.replicate 1100 'a' ++ '@' :: String.data "example.com").reverse := by
    apply trimLeftChars_of_head?
    intro c hc
    rw [List.head?_reverse, List.getLast?_append,
      show ('@' :: String.data "example.com").getLast? = some 'm' from rfl] at hc
    simp only [Option.or_some, Option.some.injEq] at hc
    rw [← hc]
    rfl
  show String.mk (jsTrimChars (List.replicate 1100 'a' ++ '@' :: String.data "example.com"))
      = longEmailAddress
  unfold jsTrimChars
  rw [h1, h2, List.reverse_reverse]
  rfl

/-- The long address is not the empty string. -/
theorem longEmailAddress_ne_empty : longEmailAddress ≠ "" := by
  intro h
  have hd := congrArg String.data h
  rw [show longEmailAddress.data
        = List.replicate 1100 'a' ++ '@' :: String.data "example.com" from rfl] at hd
  exact List.append_ne_nil_of_right_ne_nil _ (List.cons_ne_nil _ _) hd

/-- The trimmed value meets the minimum-length bound of the rule, when the
rule specifies one. -/
def satisfiesMinLength (rules : FieldRule) (t : String) : Bool :=
  match rules.minLength with
  | none => true
  | some m => decide (m ≤ t.length)

/-- The trimmed value meets the maximum-length bound of the rule, when the
rule specifies one. -/
def satisfiesMaxLength (rules : FieldRule) (t : String) : Bool :=
  match rules.maxLength with
  | none => true
  | some m => decide (t.length ≤ m)

/-- The four checks of validateField, in the order the source lists them
(required-presence, minimum-length, maximum-length, pattern), each given as
the message it fails with, if it fails. -/
def specCheckSequence (rules : FieldRule) (t : String) : List (Option String) :=
  [if rules.required && t == "" then some rules.message else none,
   if lengthFieldTruthy rules.minLength && decide (t.length < rules.minLength.getD 0) then
     some rules.message
   else none,
   if lengthFieldTruthy rules.maxLength && decide (rules.maxLength.getD 0 < t.length) then
     some ("Maximum " ++ toString (rules.maxLength.getD 0) ++ " characters allowed")
   else none,
   if (rules.pattern.map (fun p => ! p.test t)).getD false then some rules.message else none]

/-- The message of the first failing check of the sequence, if any check fails. -/
def firstFailingCheck (rules : FieldRule) (t : String) : Option String :=
  (specCheckSequence rules t).findSome? id

/-- A name value whose trimmed length lies within the bounds two and one
hundred validates. -/
theorem validateField_name_valid {value : String}
    (h2 : 2 ≤ (jsTrim value).length) (h100 : (jsTrim value).length ≤ 100) :
    validateField "name" value = ValidationResult.valid := by
  have hne : (jsTrim value == "") = false := by
    rw [beq_eq_false_iff_ne]
    intro h
    rw [h] at h2
    exact absurd h2 (by decide)
  have hd2 : decide ((jsTrim value).length < 2) = false :=
    decide_eq_false (Nat.not_lt.mpr h2)
  have hd100 : decide (100 < (jsTrim value).length) = false :=
    decide_eq_false (Nat.not_lt.mpr h100)
  unfold validateField
  rw [show VALIDATION_RULES "name" = some nameRule from rfl]
  simp [nameRule, lengthFieldTruthy, hne, hd2, hd100]

/-- A message value whose trimmed length lies within the bounds ten and one
thousand validates. -/
theorem validateField_message_valid {value : String}
    (h10 : 10 ≤ (jsTrim value).length) (h1000 : (jsTrim value).length ≤ 1000) :
    validateField "message" value = ValidationResult.valid := by
  have hne : (jsTrim value == "") = false := by
    rw [beq_eq_false_iff_ne]
    intro h
    rw [h] at h10
    exact absurd h10 (by decide)
  have hd10 : decide ((jsTrim value).length < 10) = false :=
    decide_eq_false (Nat.not_lt.mpr h10)
  have hd1000 : decide (1000 < (jsTrim value).length) = false :=
    decide_eq_false (Nat.not_lt.mpr h1000)
  unfold validateField
  rw [show VALIDATION_RULES "message" = some messageRule from rfl]
  simp [messageRule, lengthFieldTruthy, hne, hd10, hd1000]

/-- An email value whose trimmed form matches the regex validates. -/
theorem validateField_email_valid {value : String}
    (hm : matchesEmailRegex (jsTrim value) = true) :
    validateField "email" value = ValidationResult.valid := by
  have hne0 : jsTrim value ≠ "" := by
    intro h
    rw [h] at hm
    exact absurd hm (by decide)
  have hne : (jsTrim value == "") = false := beq_eq_false_iff_ne.mpr hne0
  unfold validateField
  rw [show VALIDATION_RULES "email" = some emailRule from rfl]
  simp [emailRule, lengthFieldTruthy, hne, RegexLit.test, hm]

/-- A field absent from the error object keys of validateForm looks up to
none. -/
theorem lookup_validateForm_eq_none {fd : List (String × String)} {n : String}
    (h : n ∉ fd.map Prod.fst) : (validateForm fd).lookup n = none := by
  induction fd with
  | nil => rfl
  | cons p rest ih =>
    obtain ⟨a, v⟩ := p
    simp only [List.map_cons, List.mem_cons, not_or] at h
    obtain ⟨hna, hrest⟩ := h
    have hne : (n == a) = false := beq_eq_false_iff_ne.mpr hna
    cases hv : validateField a v with
    | valid => simp [validateForm, hv, ih hrest]
    | invalid msg => simp [validateForm, hv, List.lookup_cons, hne, ih hrest]

/-- A getter standing for a form whose three inputs all hold a value with
surrounding whitespace. -/
def rawFieldValues : String → Option String := fun _ => some "  Alice  "

/-- C1 counterexample: validateField does not always answer with the message
field of the rule. On a 101-character name the first failing check is the
maximum-length check, and the message returned is the templated maximum
message, not the message field of the name rule. -/
theorem maxLength_message_differs_from_rule_message :
    VALIDATION_RULES "name" = some nameRule ∧
    validateField "name" (String.mk (List.replicate 101 'a'))
      = ValidationResult.invalid "Maximum 100 characters allowed" ∧
    "Maximum 100 characters allowed" ≠ nameRule.message :=
  ⟨rfl, by decide, by decide⟩

/-- C1 (amended): for every field with a rule, validateField applies the
required-presence, minimum-length, maximum-length and pattern checks in this
order to the trimmed value and returns the message of the first failing
check (the message field of the rule for the required, minimum-length and
pattern checks, the templated maximum message for the maximum-length check),
or a valid result when no check fails. -/
theorem validateField_eq_firstFailingCheck (name : String) (rules : FieldRule)
    (value : String) (hr : VALIDATION_RULES name = some rules) :
    validateField name value =
      match firstFailingCheck rules (jsTrim value) with
      | some msg => ValidationResult.invalid msg
      | none => ValidationResult.valid := by
  unfold validateField firstFailingCheck specCheckSequence
  rw [hr]
  by_cases h1 : (rules.required && (jsTrim value == "")) = true
  · simp [h1, List.findSome?]
  · rw [Bool.not_eq_true] at h1
    by_cases h2 : (lengthFieldTruthy rules.minLength &&
        decide ((jsTrim value).length < rules.minLength.getD 0)) = true
    · simp [h1, h2, List.findSome?]
    · rw [Bool.not_eq_true] at h2
      by_cases h3 : (lengthFieldTruthy rules.maxLength &&
          decide (rules.maxLength.getD 0 < (jsTrim value).length)) = true
      · simp [h1, h2, h3, List.findSome?]
      · rw [Bool.not_eq_true] at h3
        by_cases h4 : ((rules.pattern.map (fun p => ! p.test (jsTrim value))).getD false) = true
        · simp [h1, h2, h3, h4, List.findSome?]
        · rw [Bool.not_eq_true] at h4
          simp [h1, h2, h3, h4, List.findSome?]

/-- C1 witness: the amended statement instantiated at the email field and
the value bad. -/
theorem validateField_eq_firstFailingCheck_witness :
    VALIDATION_RULES "email" = some emailRule ∧
    validateField "email" "bad"
      = (match firstFailingCheck emailRule (jsTrim "bad") with
         | some msg => ValidationResult.invalid msg
         | none => ValidationResult.valid) :=
  ⟨rfl, validateField_eq_firstFailingCheck "email" emailRule "bad" rfl⟩

/-- C2: on a snapshot with distinct field names, the error object of
validateForm assigns to a field exactly the message validateField produces
for its value when that result is invalid, and has no entry for the field
when the result is valid. -/
theorem validateForm_lookup_spec (fd : List (String × String))
    (h : (fd.map Prod.fst).Nodup) (n : String) :
    (validateForm fd).lookup n =
      (fd.lookup n).bind (fun v =>
        match validateField n v with
        | .valid => none
        | .invalid msg => some msg) := by
  induction fd with
  | nil => rfl
  | cons p rest ih =>
    obtain ⟨a, v⟩ := p
    simp only [List.map_cons, List.nodup_cons] at h
    obtain ⟨ha, hrest⟩ := h
    by_cases hn : n = a
    · subst hn
      cases hv : validateField n v with
      | valid => simp [validateForm, hv, List.lookup_cons, lookup_validateForm_eq_none ha]
      | invalid msg => simp [validateForm, hv, List.lookup_cons]
    · have hne : (n == a) = false := beq_eq_false_iff_ne.mpr hn
      cases hv : validateField a v with
      | valid => simp [validateForm, hv, List.lookup_cons, hne, ih hrest]
      | invalid msg => simp [validateForm, hv, List.lookup_cons, hne, ih hrest]

/-- C2 witness: the lookup characterisation instantiated at a concrete
two-field snapshot and the email field. -/
theorem validateForm_lookup_spec_witness :
    (([("name", "Alice"), ("email", "bad")] : List (String × String)).map Prod.fst).Nodup ∧
    (validateForm [("name", "Alice"), ("email", "bad")]).lookup "email" =
      (([("name", "Alice"), ("email", "bad")] : List (String × String)).lookup "email").bind
        (fun v =>
          match validateField "email" v with
          | .valid => none
          | .invalid msg => some msg) :=
  ⟨by decide, validateForm_lookup_spec [("name", "Alice"), ("email", "bad")] (by decide) "email"⟩

/-- C3: handleSubmit hands the snapshot to the simulated submission exactly
when validateForm returns the empty error object; on any validation failure
the submission is not attempted. -/
theorem handleSubmit_submits_iff_no_errors (getField : String → Option String) :
    handleSubmit getField = SubmitOutcome.submitted (buildFormSnapshot getField) ↔
      validateForm (buildFormSnapshot getField) = [] := by
  rw [show handleSubmit getField
      = (if (validateForm (buildFormSnapshot getField)).length > 0 then
          SubmitOutcome.blocked (validateForm (buildFormSnapshot getField))
        else SubmitOutcome.submitted (buildFormSnapshot getField)) from rfl]
  by_cases h : (validateForm (buildFormSnapshot getField)).length > 0
  · rw [if_pos h]
    constructor
    · intro hb
      exact absurd hb (by simp)
    · intro he
      rw [he] at h
      exact absurd h (by simp)
  · rw [if_neg h]
    have he : validateForm (buildFormSnapshot getField) = [] :=
      List.length_eq_zero.mp (Nat.eq_zero_of_not_pos h)
    simp [he]

/-- C4: a value whose trimmed length is strictly below the minimum length
specified by the rule of its field is reported invalid. -/
theorem validateField_invalid_of_short (name : String) (rules : FieldRule) (m : Nat)
    (value : String) (hr : VALIDATION_RULES name = some rules)
    (hm : rules.minLength = some m) (hlen : (jsTrim value).length < m) :
    (validateField name value).isValid = false := by
  unfold validateField
  rw [hr]
  by_cases h1 : (rules.required && (jsTrim value == "")) = true
  · simp [h1, ValidationResult.isValid]
  · rw [Bool.not_eq_true] at h1
    have h2 : (lengthFieldTruthy rules.minLength &&
        decide ((jsTrim value).length < rules.minLength.getD 0)) = true := by
      rw [hm]
      simp only [lengthFieldTruthy, Option.getD_some, Bool.and_eq_true, bne_iff_ne,
        decide_eq_true_eq]
      exact ⟨by omega, hlen⟩
    simp [h1, h2, ValidationResult.isValid]

/-- C4 witness: the short-value statement instantiated at the message field
and the value short. -/
theorem validateField_invalid_of_short_witness :
    VALIDATION_RULES "message" = some messageRule ∧
    messageRule.minLength = some 10 ∧
    (jsTrim "short").length < 10 ∧
    (validateField "message" "short").isValid = false :=
  ⟨rfl, rfl, by decide,
    validateField_invalid_of_short "message" messageRule 10 "short" rfl rfl (by decide)⟩

/-- C5: a value whose trimmed length lies within the bounds of the rule of
its field and which, for the email field, matches the email regex, is
reported valid. -/
theorem validateField_valid_of_within_bounds (name : String) (rules : FieldRule)
    (value : String) (hr : VALIDATION_RULES name = some rules)
    (hmin : satisfiesMinLength rules (jsTrim value) = true)
    (hmax : satisfiesMaxLength rules (jsTrim value) = true)
    (hpat : name = "email" → matchesEmailRegex (jsTrim value) = true) :
    validateField name value = ValidationResult.valid := by
  unfold VALIDATION_RULES at hr
  by_cases h1 : name = "name"
  · rw [if_pos h1] at hr
    injection hr with hr
    subst h1
    rw [← hr] at hmin hmax
    simp only [satisfiesMinLength, nameRule] at hmin
    simp only [satisfiesMaxLength, nameRule] at hmax
    rw [decide_eq_true_eq] at hmin hmax
    exact validateField_name_valid hmin hmax
  · rw [if_neg h1] at hr
    by_cases h2 : name = "email"
    · subst h2
      exact validateField_email_valid (hpat rfl)
    · rw [if_neg h2] at hr
      by_cases h3 : name = "message"
      · rw [if_pos h3] at hr
        injection hr with hr
        subst h3
        rw [← hr] at hmin hmax
        simp only [satisfiesMinLength, messageRule] at hmin
        simp only [satisfiesMaxLength, messageRule] at hmax
        rw [decide_eq_true_eq] at hmin hmax
        exact validateField_message_valid hmin hmax
      · rw [if_neg h3] at hr
        exact Option.noConfusion hr

/-- C5 witness: the within-bounds statement instantiated at the name field
and the value Alice. -/
theorem validateField_valid_of_within_bounds_witness :
    VALIDATION_RULES "name" = some nameRule ∧
    satisfiesMinLength nameRule (jsTrim "Alice") = true ∧
    satisfiesMaxLength nameRule (jsTrim "Alice") = true ∧
    validateField "name" "Alice" = ValidationResult.valid :=
  ⟨rfl, by decide, by decide,
    validateField_valid_of_within_bounds "name" nameRule "Alice" rfl (by decide) (by decide)
      (by decide)⟩

/-- C6: a field name outside the rule table always validates. -/
theorem validateField_unruled_valid (name value : String) (h1 : name ≠ "name")
    (h2 : name ≠ "email") (h3 : name ≠ "message") :
    validateField name value = ValidationResult.valid := by
  unfold validateField VALIDATION_RULES
  rw [if_neg h1, if_neg h2, if_neg h3]

/-- C6 witness: a phone field is not in the rule table, so any value is
valid. -/
theorem validateField_unruled_valid_witness :
    (("phone" : String) ≠ "name") ∧ (("phone" : String) ≠ "email") ∧
    (("phone" : String) ≠ "message") ∧
    validateField "phone" "whatever" = ValidationResult.valid :=
  ⟨by decide, by decide, by decide,
    validateField_unruled_valid "phone" "whatever" (by decide) (by decide) (by decide)⟩

/-- C7: on the snapshot with name A, email bad and message short,
validateForm produces exactly three error entries, one per field, in
snapshot order. -/
theorem validateForm_bad_snapshot_three_errors :
    (validateForm [("name", "A"), ("email", "bad"), ("message", "short")]).map Prod.fst
      = ["name", "email", "message"] := by decide

/-- C8 counterexample: the snapshot handleSubmit builds does not trim; a
form whose inputs carry surrounding whitespace yields snapshot values that
differ from their own trim. -/
theorem snapshot_value_not_trimmed :
    ¬ ∀ p ∈ buildFormSnapshot rawFieldValues, p.2 = jsTrim p.2 := by decide

/-- C8 (amended): the snapshot maps each of the three field names to the
raw, untrimmed current value of that input, with the empty string
substituted for a missing value; trimming happens only inside validateField
when the snapshot is validated. -/
theorem buildFormSnapshot_raw_values (getField : String → Option String) :
    (buildFormSnapshot getField).map Prod.fst = ["name", "email", "message"] ∧
    ∀ n ∈ (["name", "email", "message"] : List String),
      (buildFormSnapshot getField).lookup n = some ((getField n).getD "") := by
  refine ⟨rfl, ?_⟩
  intro n hn
  simp only [List.mem_cons, List.mem_singleton, List.not_mem_nil, or_false] at hn
  rcases hn with rfl | rfl | rfl <;> rfl

/-- C8 witness: the amended statement instantiated at the email field of the
whitespace-carrying form. -/
theorem buildFormSnapshot_raw_values_witness :
    (("email" : String) ∈ (["name", "email", "message"] : List String)) ∧
    (buildFormSnapshot rawFieldValues).lookup "email"
      = some ((rawFieldValues "email").getD "") :=
  ⟨by decide, (buildFormSnapshot_raw_values rawFieldValues).2 "email" (by decide)⟩

/-- C9: validateField is invariant under trimming its value argument, since
the value is trimmed before any check runs and trimming is idempotent. -/
theorem validateField_trim_invariant (name value : String) :
    validateField name (jsTrim value) = validateField name value := by
  unfold validateField
  cases h : VALIDATION_RULES name with
  | none => rfl
  | some rules => rw [jsTrim_idem]

/-- C10: the email rule specifies no minimum and no maximum length, and any
value that trims to a nonempty string matching the email regex validates,
with no condition on its length. -/
theorem email_rule_no_length_bounds :
    (emailRule.minLength = none ∧ emailRule.maxLength = none) ∧
    ∀ value : String, jsTrim value ≠ "" → matchesEmailRegex (jsTrim value) = true →
      validateField "email" value = ValidationResult.valid :=
  ⟨⟨rfl, rfl⟩, fun _ _ hm => validateField_email_valid hm⟩

/-- C10 witness: a 1112-character address, far beyond the 1000-character cap
of the message field, still validates. -/
theorem email_rule_no_length_bounds_witness :
    jsTrim longEmailAddress ≠ "" ∧ matchesEmailRegex (jsTrim longEmailAddress) = true ∧
    1000 < longEmailAddress.length ∧
    validateField "email" longEmailAddress = ValidationResult.valid := by
  have h1 : jsTrim longEmailAddress ≠ "" := by
    rw [jsTrim_longEmailAddress]
    exact longEmailAddress_ne_empty
  have h2 : matchesEmailRegex (jsTrim longEmailAddress) = true := by
    rw [jsTrim_longEmailAddress]
    exact longEmailAddress_matches
  refine ⟨h1, h2, ?_, email_rule_no_length_bounds.2 longEmailAddress h1 h2⟩
  rw [longEmailAddress_length]
  decide

end FormJs
